import Mathlib

/-!
Verification of the structured-notes-research ingestion pipeline and
article store (`step1_ingest.py`, `api.py`, `api_server.py`, `index.py`).

The HTML document is embedded at the level of the view the parser gives
the code: the text content of the title element of the document (if any) and
the `datetime` attribute of each `time` element in document order (if
set).  The SQLite `articles` table is embedded as a list of records in
insertion order together with the AUTOINCREMENT counter and a flag for
whether `CREATE TABLE IF NOT EXISTS` has run.
-/

namespace StructuredNotes

/-- A parsed HTML document as `fetch_article` observes it through
BeautifulSoup: `titleTag` is the text content of the `title`
element when one is found (`soup.find("title")`, `.text`); `timeTags`
holds, for each `time` element in document order (`soup.find_all("time")`),
its `datetime` attribute when present (`meta.get("datetime")`). -/
structure Soup where
  titleTag : Option String
  timeTags : List (Option String)
deriving Repr, DecidableEq

/-- Python whitespace for `str.strip()` (ASCII part: space, tab, newline,
carriage return, vertical tab, form feed; exotic Unicode space characters
are not modelled). -/
def isPySpace (c : Char) : Bool :=
  c = ' ' || c = '\t' || c = '\n' || c = '\r' || c = '\x0b' || c = '\x0c'

/-- Python `s.strip()`: remove leading and trailing whitespace characters. -/
def pyStrip (s : String) : String :=
  String.mk (((s.data.dropWhile isPySpace).reverse.dropWhile isPySpace).reverse)

/-- Python `s[:n]`: the first `n` characters of `s`. -/
def pyTake (s : String) (n : Nat) : String :=
  String.mk (s.data.take n)

/-- The date-scanning loop of `fetch_article` (step1_ingest.py lines 42-47):
walk the `time` elements in document order; the first `datetime` attribute
that is set, non-empty (Python truthiness) and of length at least 10
contributes its first 10 characters; otherwise the scan yields nothing. -/
def findDateStr : List (Option String) → Option String
  | [] => none
  | attr :: rest =>
    match attr with
    | some a => if a ≠ "" && a.length ≥ 10 then some (pyTake a 10) else findDateStr rest
    | none => findDateStr rest

/-- Function `fetch_article` (step1_ingest.py): extract `(title, publication_date)`
from a fetched document.  `title` is the stripped text of the title tag,
or the URL when no title tag is found; the date is the result of the
`time`-element scan, or `today` (the current UTC date, passed explicitly
since the clock is external) when the scan produced nothing
(`if not date_str`). -/
def fetch_article (url : String) (soup : Soup) (today : String) : String × String :=
  let title := match soup.titleTag with
    | some t => pyStrip t
    | none => url
  let date_str := findDateStr soup.timeTags
  let date := match date_str with
    | some s => if s = "" then today else s
    | none => today
  (title, date)

/-- A row of the `articles` table (schema in `init_db`). -/
structure Article where
  id : Nat
  url : String
  title : String
  publication_date : String
  fetched_at : String
deriving Repr, DecidableEq

/-- The SQLite database state: whether the `articles` table exists,
its rows in insertion order, and the AUTOINCREMENT counter for `id`. -/
structure DB where
  articlesTable : Bool
  rows : List Article
  nextId : Nat
deriving Repr, DecidableEq

/-- A fresh database file: no `articles` table yet, AUTOINCREMENT starts at 1. -/
def DB.empty : DB := ⟨false, [], 1⟩

/-- Function `init_db` (step1_ingest.py): `CREATE TABLE IF NOT EXISTS articles ...` —
creates the table when missing and leaves existing rows untouched. -/
def init_db (db : DB) : DB := { db with articlesTable := true }

/-- Function `save_article` (step1_ingest.py):
`INSERT INTO articles ... ON CONFLICT(url) DO UPDATE SET title=excluded.title,
publication_date=excluded.publication_date, fetched_at=excluded.fetched_at`.
If a row with this `url` exists (the UNIQUE constraint on `url` conflicts),
its `title`, `publication_date` and `fetched_at` are updated in place;
otherwise a new row is inserted with the next AUTOINCREMENT id. -/
def save_article (db : DB) (url title pub_date fetched_at : String) : DB :=
  if db.rows.any (fun a => a.url = url) then
    { db with rows := db.rows.map fun a =>
        if a.url = url then
          { a with title := title, publication_date := pub_date, fetched_at := fetched_at }
        else a }
  else
    { db with
      rows := db.rows ++ [⟨db.nextId, url, title, pub_date, fetched_at⟩],
      nextId := db.nextId + 1 }

/-- Outcome of `requests.get(url)` followed by `response.raise_for_status()`:
either a network-level failure or a non-success HTTP status, both raised
as exceptions to the caller. -/
inductive FetchError where
  | network
  | status (code : Nat)
deriving Repr, DecidableEq

/-- Function `main` (step1_ingest.py): one ingestion call.  `init_db` runs first;
then the fetch — whose outcome is external and passed in as `fetched` —
either raises (the exception propagates, `save_article` never runs) or
yields a document that is parsed by `fetch_article` and upserted by
`save_article`.  Returns the database state left behind together with
the propagated error or the `(title, publication_date)` reported. -/
def ingest (db : DB) (url : String) (fetched : Except FetchError Soup)
    (today fetched_at : String) : DB × Except FetchError (String × String) :=
  let conn := init_db db
  match fetched with
  | .error e => (conn, .error e)
  | .ok soup =>
    let (title, pub_date) := fetch_article url soup today
    (save_article conn url title pub_date fetched_at, .ok (title, pub_date))

/-- Function `list_articles` (api.py / api_server.py / index.py):
`SELECT id, url, title, publication_date, fetched_at FROM articles
ORDER BY id DESC`. -/
def list_articles (db : DB) : List Article :=
  db.rows.mergeSort (fun a b => b.id ≤ a.id)

/-- An API response: either a value or an `HTTPException` with a status
code and detail string. -/
inductive ApiResult (α : Type) where
  | ok (value : α)
  | httpError (status_code : Nat) (detail : String)
deriving Repr, DecidableEq

/-- Function `get_article` (api.py / api_server.py / index.py):
`SELECT ... FROM articles WHERE id=?` with `fetchone()`; when no row
matches, `HTTPException(status_code=404, detail="Article not found")`. -/
def get_article (db : DB) (article_id : Nat) : ApiResult Article :=
  match db.rows.find? (fun a => a.id = article_id) with
  | some row => .ok row
  | none => .httpError 404 "Article not found"

/-- Inputs of one successful ingestion as they reach `save_article`. -/
structure IngestInput where
  url : String
  title : String
  pub_date : String
  fetched_at : String
deriving Repr, DecidableEq

/-- Upsert a whole sequence of successful ingestions, in order. -/
def saveAll (db : DB) : List IngestInput → DB
  | [] => db
  | i :: rest => saveAll (save_article db i.url i.title i.pub_date i.fetched_at) rest

/- ------------------------------------------------------------------ -/
/- Theorems -/

/-- C3: the extracted title is the text content of the title element
trimmed of surrounding whitespace, and when the markup has no title
element the title is the source URL itself. -/
theorem c3_title_extraction (url today t : String) (ts : List (Option String)) :
    (fetch_article url ⟨some t, ts⟩ today).1 = pyStrip t ∧
    (fetch_article url ⟨none, ts⟩ today).1 = url := by
  constructor <;> rfl

/-- C8: when the title element is present but its text is empty or only
whitespace, the extracted title is the empty string, not the source URL. -/
theorem c8_whitespace_title (url today t : String) (ts : List (Option String))
    (h : pyStrip t = "") :
    (fetch_article url ⟨some t, ts⟩ today).1 = "" := by
  simpa [fetch_article] using h

/-- C8 witness: a whitespace-only title text yields the empty string. -/
theorem c8_whitespace_title_witness :
    pyStrip "  \t " = "" ∧
    (fetch_article "https://example.com/a" ⟨some "  \t ", []⟩ "2026-10-12").1 = "" :=
  ⟨by decide, c8_whitespace_title "https://example.com/a" "2026-10-12" "  \t " [] (by decide)⟩

/-- C4: when the fetch step fails, the error propagates to the caller and
the stored rows are exactly what they were before the call. -/
theorem c4_fetch_failure_no_write (db : DB) (url today ts : String) (e : FetchError) :
    (ingest db url (Except.error e) today ts).2 = Except.error e ∧
    (ingest db url (Except.error e) today ts).1.rows = db.rows := by
  constructor <;> rfl

/-- C10: `init_db` runs before the fetch, so even an ingestion whose fetch
fails leaves the `articles` table created while the rows are unchanged. -/
theorem c10_table_created_on_failed_fetch (db : DB) (url today ts : String) (e : FetchError) :
    (ingest db url (Except.error e) today ts).1.articlesTable = true ∧
    (ingest db url (Except.error e) today ts).1.rows = db.rows := by
  constructor <;> rfl

/-- C7: listing articles on an empty store returns the empty sequence. -/
theorem c7_empty_store (db : DB) (h : db.rows = []) : list_articles db = [] := by
  simp [list_articles, h, List.mergeSort]

/-- C7 witness: the freshly initialized store lists no articles. -/
theorem c7_empty_store_witness :
    (init_db DB.empty).rows = [] ∧ list_articles (init_db DB.empty) = [] :=
  ⟨rfl, c7_empty_store (init_db DB.empty) rfl⟩

/-- C9: no date-format validation — any `datetime` attribute of length at
least 10 contributes its first 10 characters even when they are not of
`YYYY-MM-DD` form, while `time` elements with a missing or empty
`datetime` attribute are skipped. -/
theorem c9_no_format_validation (url today a : String) (ts : List (Option String))
    (h : a.length ≥ 10) :
    (fetch_article url ⟨none, none :: some "" :: some a :: ts⟩ today).2 =
      pyTake a 10 := by
  have ha : a ≠ "" := by
    intro h0
    rw [h0] at h
    simp at h
  have hfind : findDateStr (none :: some "" :: some a :: ts) = some (pyTake a 10) := by
    simp [findDateStr, ha, h]
  have hlen : a.data.length ≥ 10 := h
  have hne : pyTake a 10 ≠ "" := by
    intro h0
    have hdata : (a.data.take 10) = ([] : List Char) := congrArg String.data h0
    have := List.take_eq_nil_iff.mp hdata
    rcases this with h1 | h1
    · omega
    · rw [h1] at hlen
      simp at hlen
  simp [fetch_article, hfind, hne]

/-- C9 witness: a non-date attribute of length 12 is used verbatim
(truncated to 10 characters), after skipping a missing and an empty one. -/
theorem c9_no_format_validation_witness :
    ("not-a-date!!" : String).length ≥ 10 ∧
    (fetch_article "u" ⟨none, none :: some "" :: some "not-a-date!!" :: []⟩ "2026-10-12").2 =
      pyTake "not-a-date!!" 10 :=
  ⟨by decide, c9_no_format_validation "u" "2026-10-12" "not-a-date!!" [] (by decide)⟩

/-- A time element qualifies when it has a `datetime` attribute of length
at least 10 (the wording of the spec and claim; the extra truthiness
test `datetime_attr and ...` is subsumed, as an empty string has length 0). -/
def qualifies (x : Option String) : Bool :=
  match x with
  | some b => b.length ≥ 10
  | none => false

lemma pyTake_ne_empty (a : String) (h : a.length ≥ 10) : pyTake a 10 ≠ "" := by
  intro h0
  have hdata : (a.data.take 10) = ([] : List Char) := congrArg String.data h0
  have hlen : a.data.length ≥ 10 := h
  rcases List.take_eq_nil_iff.mp hdata with h1 | h1
  · omega
  · rw [h1] at hlen
    simp at hlen

lemma findDateStr_eq_none (l : List (Option String)) (h : ∀ x ∈ l, qualifies x = false) :
    findDateStr l = none := by
  induction l with
  | nil => rfl
  | cons x rest ih =>
    have hrest : ∀ y ∈ rest, qualifies y = false :=
      fun y hy => h y (List.mem_cons_of_mem _ hy)
    match x with
    | none => simpa [findDateStr] using ih hrest
    | some b =>
      have hb : qualifies (some b) = false := h _ (List.mem_cons_self _ _)
      simp only [qualifies, decide_eq_false_iff_not, ge_iff_le, not_le] at hb
      have hcond : (b ≠ "" && b.length ≥ 10) = false := by
        simp [Nat.not_le.mpr hb]
      simp only [findDateStr, hcond, Bool.false_eq_true, if_false]
      exact ih hrest

lemma findDateStr_first (pre : List (Option String)) (a : String)
    (post : List (Option String))
    (hpre : ∀ x ∈ pre, qualifies x = false) (ha : a.length ≥ 10) :
    findDateStr (pre ++ some a :: post) = some (pyTake a 10) := by
  induction pre with
  | nil =>
    have hne : a ≠ "" := by
      intro h0
      rw [h0] at ha
      simp [String.length] at ha
    simp [findDateStr, hne, ha]
  | cons x rest ih =>
    have hx : qualifies x = false := hpre _ (List.mem_cons_self _ _)
    have hrest : ∀ y ∈ rest, qualifies y = false :=
      fun y hy => hpre y (List.mem_cons_of_mem _ hy)
    match x with
    | none => simpa [findDateStr] using ih hrest
    | some b =>
      simp only [qualifies, decide_eq_false_iff_not, ge_iff_le, not_le] at hx
      have hcond : (b ≠ "" && b.length ≥ 10) = false := by
        simp [Nat.not_le.mpr hx]
      simp only [List.cons_append, findDateStr, hcond, Bool.false_eq_true, if_false]
      exact ih hrest

/-- C2: the extracted publication date is the first 10 characters of the
`datetime` attribute of the first time element (in document order) whose
`datetime` attribute has length at least 10; when no time element
qualifies, the publication date is the current UTC date. -/
theorem c2_publication_date (url today : String) (soup : Soup) :
    (∀ pre a post, soup.timeTags = pre ++ some a :: post →
        (∀ x ∈ pre, qualifies x = false) → a.length ≥ 10 →
        (fetch_article url soup today).2 = pyTake a 10) ∧
    ((∀ x ∈ soup.timeTags, qualifies x = false) →
        (fetch_article url soup today).2 = today) := by
  constructor
  · intro pre a post hsplit hpre ha
    have hfind : findDateStr soup.timeTags = some (pyTake a 10) := by
      rw [hsplit]
      exact findDateStr_first pre a post hpre ha
    simp [fetch_article, hfind, pyTake_ne_empty a ha]
  · intro hnone
    have hfind : findDateStr soup.timeTags = none := findDateStr_eq_none _ hnone
    simp [fetch_article, hfind]

/-- C2 witness: with one too-short attribute and one missing attribute
before a qualifying timestamp, the date is the first ten
characters. -/
theorem c2_publication_date_witness :
    ((⟨some " Foo ", [some "short", none, some "2024-03-01T08:30", some "2025-01-01"]⟩ :
        Soup).timeTags =
      [some "short", none] ++ some "2024-03-01T08:30" :: [some "2025-01-01"]) ∧
    (∀ x ∈ ([some "short", none] : List (Option String)), qualifies x = false) ∧
    ("2024-03-01T08:30" : String).length ≥ 10 ∧
    (fetch_article "u"
        ⟨some " Foo ", [some "short", none, some "2024-03-01T08:30", some "2025-01-01"]⟩
        "2026-10-12").2 = pyTake "2024-03-01T08:30" 10 :=
  ⟨rfl, by decide, by decide,
    (c2_publication_date "u" "2026-10-12"
        ⟨some " Foo ", [some "short", none, some "2024-03-01T08:30", some "2025-01-01"]⟩).1
      [some "short", none] "2024-03-01T08:30" [some "2025-01-01"] rfl (by decide) (by decide)⟩

/-- C5: `list_articles` returns all stored records (a permutation of the
rows of the table) sorted by `id` in descending order. -/
theorem c5_list_articles_sorted (db : DB) :
    (list_articles db).Perm db.rows ∧
    (list_articles db).Pairwise (fun a b => b.id ≤ a.id) := by
  constructor
  · exact List.mergeSort_perm db.rows _
  · have hs := @List.sorted_mergeSort Article (fun a b => decide (b.id ≤ a.id))
      (fun a b c hab hbc => by
        simp only [decide_eq_true_eq] at *
        omega)
      (fun a b => by
        simp only [Bool.or_eq_true, decide_eq_true_eq]
        omega)
      db.rows
    exact hs.imp (fun h => by simpa using h)

/-- C6: `get_article` on an `id` no stored record carries yields the
404 "Article not found" outcome, and on the `id` of a stored record it
yields a stored record with that `id`. -/
theorem c6_get_article (db : DB) (i : Nat) :
    ((∀ a ∈ db.rows, a.id ≠ i) →
        get_article db i = ApiResult.httpError 404 "Article not found") ∧
    ((∃ a ∈ db.rows, a.id = i) →
        ∃ a, get_article db i = ApiResult.ok a ∧ a ∈ db.rows ∧ a.id = i) := by
  constructor
  · intro h
    have hnone : db.rows.find? (fun a => a.id = i) = none := by
      rw [List.find?_eq_none]
      intro a ha
      simp [h a ha]
    simp [get_article, hnone]
  · rintro ⟨a, ha, hai⟩
    have hsome : (db.rows.find? (fun x => x.id = i)).isSome := by
      rw [List.find?_isSome]
      exact ⟨a, ha, by simp [hai]⟩
    obtain ⟨b, hb⟩ := Option.isSome_iff_exists.mp hsome
    refine ⟨b, ?_, ?_, ?_⟩
    · simp [get_article, hb]
    · exact List.mem_of_find?_eq_some hb
    · have := List.find?_some hb
      simpa using this

/-- C6 witness: on a one-row store, an unassigned id yields the 404
outcome and the assigned id yields that row. -/
theorem c6_get_article_witness :
    (∀ a ∈ (DB.mk true [⟨1, "https://example.com/a", "Foo", "2024-03-01", "2024-03-01 10:00:00"⟩] 2).rows,
        a.id ≠ 2) ∧
    get_article (DB.mk true [⟨1, "https://example.com/a", "Foo", "2024-03-01", "2024-03-01 10:00:00"⟩] 2) 2 =
      ApiResult.httpError 404 "Article not found" ∧
    (∃ a ∈ (DB.mk true [⟨1, "https://example.com/a", "Foo", "2024-03-01", "2024-03-01 10:00:00"⟩] 2).rows,
        a.id = 1) ∧
    (∃ a, get_article (DB.mk true [⟨1, "https://example.com/a", "Foo", "2024-03-01", "2024-03-01 10:00:00"⟩] 2) 1 =
        ApiResult.ok a ∧
      a ∈ (DB.mk true [⟨1, "https://example.com/a", "Foo", "2024-03-01", "2024-03-01 10:00:00"⟩] 2).rows ∧
      a.id = 1) :=
  ⟨by decide,
   (c6_get_article (DB.mk true [⟨1, "https://example.com/a", "Foo", "2024-03-01", "2024-03-01 10:00:00"⟩] 2) 2).1
     (by decide),
   by decide,
   (c6_get_article (DB.mk true [⟨1, "https://example.com/a", "Foo", "2024-03-01", "2024-03-01 10:00:00"⟩] 2) 1).2
     (by decide)⟩

lemma save_article_urls (db : DB) (u t p f : String) :
    (save_article db u t p f).rows.map Article.url =
      if (db.rows.any fun a => a.url = u) = true then db.rows.map Article.url
      else db.rows.map Article.url ++ [u] := by
  by_cases hany : (db.rows.any fun a => a.url = u) = true
  · rw [if_pos hany]
    unfold save_article
    rw [if_pos hany]
    simp only [List.map_map]
    refine List.map_congr_left ?_
    intro a _
    by_cases hc : a.url = u <;> simp [Function.comp, hc]
  · rw [if_neg hany]
    unfold save_article
    rw [if_neg hany]
    simp

lemma save_article_nodup (db : DB) (u t p f : String)
    (h : (db.rows.map Article.url).Nodup) :
    ((save_article db u t p f).rows.map Article.url).Nodup := by
  rw [save_article_urls]
  by_cases hany : (db.rows.any fun a => a.url = u) = true
  · rwa [if_pos hany]
  · have hu : u ∉ db.rows.map Article.url := by
      intro hmem
      obtain ⟨a, ha, hau⟩ := List.mem_map.mp hmem
      exact hany (List.any_eq_true.mpr ⟨a, ha, by simp [hau]⟩)
    rw [if_neg hany]
    exact ((List.perm_append_singleton u (db.rows.map Article.url)).nodup_iff).mpr
      (List.nodup_cons.mpr ⟨hu, h⟩)

lemma save_article_toFinset (db : DB) (u t p f : String) :
    ((save_article db u t p f).rows.map Article.url).toFinset =
      insert u (db.rows.map Article.url).toFinset := by
  rw [save_article_urls]
  by_cases hany : (db.rows.any fun a => a.url = u) = true
  · rw [if_pos hany]
    obtain ⟨a, ha, hau⟩ := List.any_eq_true.mp hany
    have hu : u ∈ db.rows.map Article.url :=
      List.mem_map.mpr ⟨a, ha, by simpa using hau⟩
    rw [Finset.insert_eq_self.mpr (List.mem_toFinset.mpr hu)]
  · rw [if_neg hany]
    simp [List.toFinset_append, Finset.insert_eq, Finset.union_comm]

lemma saveAll_nodup (ins : List IngestInput) :
    ∀ db : DB, (db.rows.map Article.url).Nodup →
      ((saveAll db ins).rows.map Article.url).Nodup := by
  induction ins with
  | nil => intro db h; exact h
  | cons i rest ih =>
    intro db h
    show ((saveAll (save_article db i.url i.title i.pub_date i.fetched_at) rest).rows.map
        Article.url).Nodup
    exact ih _ (save_article_nodup db i.url i.title i.pub_date i.fetched_at h)

lemma saveAll_toFinset (ins : List IngestInput) :
    ∀ db : DB,
      ((saveAll db ins).rows.map Article.url).toFinset =
        (db.rows.map Article.url).toFinset ∪ (ins.map IngestInput.url).toFinset := by
  induction ins with
  | nil => intro db; simp [saveAll]
  | cons i rest ih =>
    intro db
    show ((saveAll (save_article db i.url i.title i.pub_date i.fetched_at) rest).rows.map
        Article.url).toFinset = _
    rw [ih, save_article_toFinset]
    simp [Finset.insert_union, Finset.union_insert]

lemma rows_length_eq_card (db : DB) (h : (db.rows.map Article.url).Nodup) :
    db.rows.length = (db.rows.map Article.url).toFinset.card := by
  rw [List.toFinset_card_of_nodup h, List.length_map]

/-- C1: across any sequence of successful ingestions the stored urls stay
pairwise distinct and the number of stored records equals the number of
distinct urls ever ingested; upserting an already-stored url preserves
the `id` and `url` of every record and rewrites, in place, the `title`,
`publication_date` and `fetched_at` in place. -/
theorem c1_upsert_uniqueness :
    (∀ ins : List IngestInput,
      ((saveAll (init_db DB.empty) ins).rows.map Article.url).Nodup ∧
      (saveAll (init_db DB.empty) ins).rows.length =
        ((ins.map IngestInput.url).toFinset).card) ∧
    (∀ (db : DB) (u t p f : String), (∃ a ∈ db.rows, a.url = u) →
      ((save_article db u t p f).rows.map (fun a => (a.id, a.url)) =
          db.rows.map (fun a => (a.id, a.url)) ∧
        ∀ a ∈ (save_article db u t p f).rows, a.url = u →
          a.title = t ∧ a.publication_date = p ∧ a.fetched_at = f)) := by
  constructor
  · intro ins
    have hn : ((saveAll (init_db DB.empty) ins).rows.map Article.url).Nodup :=
      saveAll_nodup ins _ (by simp [init_db, DB.empty])
    refine ⟨hn, ?_⟩
    have hset : ((saveAll (init_db DB.empty) ins).rows.map Article.url).toFinset =
        (ins.map IngestInput.url).toFinset := by
      rw [saveAll_toFinset]
      simp [init_db, DB.empty]
    rw [rows_length_eq_card _ hn, hset]
  · intro db u t p f hex
    obtain ⟨a0, ha0, ha0u⟩ := hex
    have hany : (db.rows.any fun a => a.url = u) = true :=
      List.any_eq_true.mpr ⟨a0, ha0, by simp [ha0u]⟩
    have hrows : (save_article db u t p f).rows =
        db.rows.map (fun a => if a.url = u then
          { a with title := t, publication_date := p, fetched_at := f } else a) := by
      unfold save_article
      rw [if_pos hany]
    constructor
    · rw [hrows, List.map_map]
      refine List.map_congr_left ?_
      intro a _
      by_cases hc : a.url = u <;> simp [Function.comp, hc]
    · intro a ha hau
      rw [hrows] at ha
      obtain ⟨b, hb, hba⟩ := List.mem_map.mp ha
      by_cases hc : b.url = u
      · rw [if_pos hc] at hba
        rw [← hba]
        exact ⟨rfl, rfl, rfl⟩
      · rw [if_neg hc] at hba
        rw [← hba] at hau
        exact absurd hau hc

/-- C1 witness: ingesting the same url twice and a second url once leaves
two records (two distinct urls), and re-upserting an existing url keeps
the `(id, url)` column unchanged. -/
theorem c1_upsert_uniqueness_witness :
    ((saveAll (init_db DB.empty)
        [⟨"https://example.com/a", "Foo", "2024-03-01", "ts1"⟩,
         ⟨"https://example.com/a", "Foo Updated", "2024-03-05", "ts2"⟩,
         ⟨"https://example.com/b", "Bar", "2024-04-01", "ts3"⟩]).rows.length =
      (([⟨"https://example.com/a", "Foo", "2024-03-01", "ts1"⟩,
         ⟨"https://example.com/a", "Foo Updated", "2024-03-05", "ts2"⟩,
         ⟨"https://example.com/b", "Bar", "2024-04-01", "ts3"⟩] :
           List IngestInput).map IngestInput.url).toFinset.card) ∧
    (∃ a ∈ (DB.mk true [⟨1, "u", "t0", "p0", "f0"⟩] 2).rows, a.url = "u") ∧
    ((save_article (DB.mk true [⟨1, "u", "t0", "p0", "f0"⟩] 2) "u" "t1" "p1" "f1").rows.map
        (fun a => (a.id, a.url)) =
      (DB.mk true [⟨1, "u", "t0", "p0", "f0"⟩] 2).rows.map (fun a => (a.id, a.url))) :=
  ⟨(c1_upsert_uniqueness.1 _).2,
   by decide,
   (c1_upsert_uniqueness.2 (DB.mk true [⟨1, "u", "t0", "p0", "f0"⟩] 2) "u" "t1" "p1" "f1"
     (by decide)).1⟩

end StructuredNotes
